import Mathlib

/-!
Shallow embedding of the gin-practice marketplace core: the entity model
(`Item`, `User`), the item/user repositories, and the `ItemService`
business orchestrator (create, partial update, purchase, statistics,
pagination).  Machine integers (`uint`) are modelled as `Nat`; all values
involved are validated to at most 999999, far below 2^64, so no overflow
is reachable in the modelled operations.  Fallible Go functions returning
`(value, error)` are modelled as `Except AppError`.
-/

/-- Entity `models.Item`: fields `ID` (from `gorm.Model`), `Name`, `Price`
(Go `uint`), `Description`, `SoldOut`.  The timestamp and foreign-key
fields (`CreatedAt`, `UpdatedAt`, `UserId`, `CategoryId`) are never read
or written by the modelled operations and are omitted. -/
structure Item where
  id : Nat
  name : String
  price : Nat
  description : String
  soldOut : Bool
deriving DecidableEq, Repr

/-- Entity `models.User`: `ID` and `Balance` (Go `uint`).  Profile fields
(email, username, password, ...) are irrelevant to the core and omitted. -/
structure User where
  id : Nat
  balance : Nat
deriving DecidableEq, Repr

/-- The persistent store: the `items` and `users` tables.  Primary keys are
the `id` fields. -/
structure DB where
  items : List Item
  users : List User
deriving DecidableEq, Repr

/-- Error taxonomy of the core, abstracting the Go error values:
`notFound` is `errors.New("Item not found")` (and the symmetric user-side
error), `alreadySoldOut` is the purchase rejection for a sold-out item,
`insufficientBalance` the balance rejection, `immutablePriceAfterSale` the
`Item.BeforeUpdate` hook rejection for price changes on a sold-out item,
and `infrastructureError` a storage-level write failure. -/
inductive AppError where
  | notFound
  | alreadySoldOut
  | insufficientBalance
  | immutablePriceAfterSale
  | infrastructureError
deriving DecidableEq, Repr

/-- DTO `dto.CreateItemInput`: `Name` (required, min length 2), `Price`
(required, 1..999999), `Description` (optional). -/
structure CreateItemInput where
  name : String
  price : Nat
  description : String
deriving DecidableEq, Repr

/-- Validation constraints on `CreateItemInput` from its binding tags:
`required,min=2` on name and `required,min=1,max=999999` on price. -/
def CreateItemInput.Valid (input : CreateItemInput) : Prop :=
  2 ≤ input.name.length ∧ 1 ≤ input.price ∧ input.price ≤ 999999

instance (input : CreateItemInput) : Decidable input.Valid := by
  unfold CreateItemInput.Valid
  infer_instance

/-- DTO `dto.UpdateItemInput`: every field is a pointer (`*string`,
`*uint`, `*bool`), modelled with `Option`; `none` is a nil pointer
(field absent from the request). -/
structure UpdateItemInput where
  name : Option String
  price : Option Nat
  description : Option String
  soldOut : Option Bool
deriving DecidableEq, Repr

/-- Lookup of an item row by primary key, as in `ItemRepository.FindById`
(`r.db.First(&item, itemId)`); `none` corresponds to
`gorm.ErrRecordNotFound`. -/
def findItemById (db : DB) (itemId : Nat) : Option Item :=
  db.items.find? (fun i => i.id == itemId)

/-- Lookup of a user row by primary key (`IUserRepository.FindById`). -/
def findUserById (db : DB) (userId : Nat) : Option User :=
  db.users.find? (fun u => u.id == userId)

/-- `ItemService.calculatePrice`: the Go code computes
`uint(float64(basePrice) * 1.10)` with `taxRate = 1.10`.  For every base
price up to 999999 (indeed up to about 2^49) the double-precision product
`float64(b) * 1.10` lies in `[11b/10, 11b/10 + 1/10)`, so its truncation
to `uint` equals the integer floor `11 * b / 10`, which is how it is
modelled here. -/
def calculatePrice (basePrice : Nat) : Nat :=
  basePrice * 11 / 10

/-- `ItemRepository.FindById` wrapped in the repository error contract:
a missing row surfaces as `notFound` ("Item not found"). -/
def ItemRepository.FindById (db : DB) (itemId : Nat) : Except AppError Item :=
  match findItemById db itemId with
  | none => .error .notFound
  | some item => .ok item

/-- `ItemRepository.Create` (in-memory implementation): assigns the fresh
id `len(items) + 1` and appends the row.  The GORM implementation assigns
the next serial primary key, which agrees with this on every database
reachable from an empty table. -/
def ItemRepository.Create (db : DB) (newItem : Item) : Item × DB :=
  let stored : Item := { newItem with id := db.items.length + 1 }
  (stored, { db with items := db.items ++ [stored] })

/-- `ItemRepository.Update` combined with the GORM `Item.BeforeUpdate`
hook.  The hook loads the current row (`tx.First(&oldItem, i.ID)`) and
rejects the write when `oldItem.SoldOut && oldItem.Price != i.Price`
("売り切れ商品の価格は変更できません", modelled as
`immutablePriceAfterSale`).  Otherwise `Updates` overwrites the columns
`name`, `price`, `description`, `sold_out` of the row with that primary
key; `RowsAffected == 0` surfaces as `notFound`.  (With a missing id the
hook's zero-valued `oldItem` has `SoldOut == false`, so the hook passes
and the zero-rows case decides.) -/
def ItemRepository.Update (db : DB) (updateItem : Item) : Except AppError DB :=
  match db.items.find? (fun i => i.id == updateItem.id) with
  | none => .error .notFound
  | some oldItem =>
    if oldItem.soldOut && oldItem.price != updateItem.price then
      .error .immutablePriceAfterSale
    else
      .ok { db with
            items := db.items.map (fun i => if i.id == updateItem.id then updateItem else i) }

/-- Modelled from the spec: the user repository implementation is not under
`src/` (only the `IUserRepository` field of `ItemService` appears there).
Following §4.2, `update` persists the user row by primary key and fails
with `NotFound` when the id is absent. -/
def UserRepository.Update (db : DB) (updateUser : User) : Except AppError DB :=
  match db.users.find? (fun u => u.id == updateUser.id) with
  | none => .error .notFound
  | some _ =>
    .ok { db with
          users := db.users.map (fun u => if u.id == updateUser.id then updateUser else u) }

/-- `ItemService.Create`: computes the final price with `calculatePrice`,
maps the DTO to an entity with `SoldOut: false`, and delegates to
`ItemRepository.Create`. -/
def ItemService.Create (db : DB) (input : CreateItemInput) : Item × DB :=
  ItemRepository.Create db
    { id := 0
      name := input.name
      price := calculatePrice input.price
      description := input.description
      soldOut := false }

/-- `ItemService.Update`: loads the current item (propagating `notFound`),
overwrites exactly the non-nil DTO fields on the loaded copy — `Name` and
`Description` verbatim, `Price` through `calculatePrice` — and persists
through `ItemRepository.Update`.  The DTO's `SoldOut` pointer is never
consulted. -/
def ItemService.Update (db : DB) (itemId : Nat) (input : UpdateItemInput) :
    Except AppError (Item × DB) :=
  match findItemById db itemId with
  | none => .error .notFound
  | some targetItem =>
    let t1 := match input.name with
      | some n => { targetItem with name := n }
      | none => targetItem
    let t2 := match input.price with
      | some p => { t1 with price := calculatePrice p }
      | none => t1
    let t3 := match input.description with
      | some d => { t2 with description := d }
      | none => t2
    match ItemRepository.Update db t3 with
    | .error e => .error e
    | .ok db2 => .ok (t3, db2)

/-- `ItemService.PurchaseItem`, returning the Go result together with the
store state observable afterwards.  Control flow as in the source: load
item (`notFound` propagates), reject `alreadySoldOut`, load user, reject
`insufficientBalance`, persist the item with `SoldOut = true`, then
persist the debited user balance.  The parameter `userWriteFails` injects
a storage failure (`InfrastructureError`) into the second write,
`s.userRepo.Update`: in the source the failure is returned as-is — the
surrounding transaction and `tx.Rollback()` are commented out — so the
already-persisted item write is not reverted. -/
def ItemService.PurchaseItem (db : DB) (itemId userId : Nat) (userWriteFails : Bool) :
    Except AppError Unit × DB :=
  match findItemById db itemId with
  | none => (.error .notFound, db)
  | some item =>
    if item.soldOut then (.error .alreadySoldOut, db)
    else
      match findUserById db userId with
      | none => (.error .notFound, db)
      | some user =>
        if user.balance < item.price then (.error .insufficientBalance, db)
        else
          match ItemRepository.Update db { item with soldOut := true } with
          | .error e => (.error e, db)
          | .ok db2 =>
            if userWriteFails then (.error .infrastructureError, db2)
            else
              match UserRepository.Update db2
                  { user with balance := user.balance - item.price } with
              | .error e => (.error e, db2)
              | .ok db3 => (.ok (), db3)

/-- Result shape of `ItemService.GetStatistics` (`dto.ItemStatistics`). -/
structure ItemStatistics where
  totalItems : Nat
  soldItems : Nat
  averagePrice : Nat
deriving DecidableEq, Repr

/-- `ItemService.GetStatistics` over the rows returned by `FindAll`: sums
all prices, counts sold items, and computes
`avgPrice := totalPrice / uint(len(*items))` with no guard on the
denominator.  In Go, `uint` division by zero is a runtime panic
("integer divide by zero"); the panic on an empty item set is modelled as
`none`. -/
def ItemService.GetStatistics (items : List Item) : Option ItemStatistics :=
  if items.length = 0 then
    none
  else
    some
      { totalItems := items.length
        soldItems := (items.filter (fun i => i.soldOut)).length
        averagePrice := (items.map (fun i => i.price)).sum / items.length }

/-- `ItemRepository.FindWithPagination`: `total` is the row count of the
whole table; the page slice is `Offset((page-1)*pageSize).Limit(pageSize)`,
i.e. drop the offset then take at most `pageSize` rows. -/
def ItemRepository.FindWithPagination (items : List Item) (page pageSize : Nat) :
    List Item × Nat :=
  ((items.drop ((page - 1) * pageSize)).take pageSize, items.length)

/-! ### Helper lemmas about lookups and row replacement -/

theorem findItemById_id_eq {db : DB} {itemId : Nat} {t : Item}
    (h : findItemById db itemId = some t) : t.id = itemId := by
  have := List.find?_some h
  simpa using this

theorem findItemById_mem {db : DB} {itemId : Nat} {t : Item}
    (h : findItemById db itemId = some t) : t ∈ db.items :=
  List.mem_of_find?_eq_some h

theorem findUserById_id_eq {db : DB} {userId : Nat} {u : User}
    (h : findUserById db userId = some u) : u.id = userId := by
  have := List.find?_some h
  simpa using this

theorem findUserById_mem {db : DB} {userId : Nat} {u : User}
    (h : findUserById db userId = some u) : u ∈ db.users :=
  List.mem_of_find?_eq_some h

theorem ItemRepository.update_ok_shape {db : DB} {it : Item} {db' : DB}
    (h : ItemRepository.Update db it = .ok db') :
    db'.users = db.users ∧
    db'.items = db.items.map (fun j => if j.id == it.id then it else j) := by
  unfold ItemRepository.Update at h
  cases hfind : db.items.find? (fun i => i.id == it.id) with
  | none => rw [hfind] at h; exact Except.noConfusion h
  | some old =>
    simp only [hfind] at h
    cases hc : old.soldOut && old.price != it.price with
    | true => simp [hc] at h
    | false =>
      simp only [hc, Bool.false_eq_true, if_false] at h
      cases h
      exact ⟨rfl, rfl⟩

theorem UserRepository.update_users_shape {db : DB} {u : User} {db' : DB}
    (h : UserRepository.Update db u = .ok db') :
    db'.items = db.items ∧
    db'.users = db.users.map (fun v => if v.id == u.id then u else v) := by
  unfold UserRepository.Update at h
  cases hfind : db.users.find? (fun v => v.id == u.id) with
  | none => rw [hfind] at h; exact Except.noConfusion h
  | some old => rw [hfind] at h; cases h; exact ⟨rfl, rfl⟩

theorem mem_replace_item {l : List Item} {a j : Item}
    (hj : j ∈ l.map (fun x => if x.id == a.id then a else x)) (hid : j.id = a.id) :
    j = a := by
  obtain ⟨x, hx, rfl⟩ := List.mem_map.mp hj
  cases h : x.id == a.id with
  | true => simp [h]
  | false =>
    exfalso
    simp only [h, Bool.false_eq_true, if_false] at hid
    simp at h
    exact h hid

theorem mem_replace_user {l : List User} {a j : User}
    (hj : j ∈ l.map (fun x => if x.id == a.id then a else x)) (hid : j.id = a.id) :
    j = a := by
  obtain ⟨x, hx, rfl⟩ := List.mem_map.mp hj
  cases h : x.id == a.id with
  | true => simp [h]
  | false =>
    exfalso
    simp only [h, Bool.false_eq_true, if_false] at hid
    simp at h
    exact h hid

theorem item_eq_of_id_eq {l : List Item}
    (hn : (l.map (fun i => i.id)).Nodup) {a b : Item}
    (ha : a ∈ l) (hb : b ∈ l) (h : a.id = b.id) : a = b :=
  List.inj_on_of_nodup_map hn ha hb h

/-! ### Concrete fixtures used by counterexamples and witnesses -/

/-- A valid create request with client price 1000. -/
def laptopInput : CreateItemInput :=
  { name := "Laptop", price := 1000, description := "thin" }

/-- The empty store. -/
def emptyDB : DB := { items := [], users := [] }

/-- A stored item with name A and price 100, not sold out. -/
def itemA : Item :=
  { id := 1, name := "A", price := 100, description := "", soldOut := false }

/-- A store holding only `itemA`. -/
def dbA : DB := { items := [itemA], users := [] }

/-- Partial update request that only sets the price, to 150. -/
def priceOnly150 : UpdateItemInput :=
  { name := none, price := some 150, description := none, soldOut := none }

/-- Twenty-five stored items with ids 1..25. -/
def items25 : List Item :=
  (List.range 25).map
    (fun k => { id := k + 1, name := "I", price := 100, description := "", soldOut := false })

/-! ### C4 -/

/-- C4: the claim says `statistics()` never divides by zero and returns
`averagePrice == 0` on an empty item set.  The code computes
`totalPrice / uint(len(*items))` with no zero guard, so on zero items the
Go program panics with a division by zero instead of returning 0:
evaluating the embedded code at the failing input (the empty item set)
yields the panic outcome `none`, not a statistics value with
`averagePrice = 0`. -/
theorem getStatistics_zero_items_fails :
    ItemService.GetStatistics [] = none ∧
    ∀ items : List Item, items ≠ [] →
      ItemService.GetStatistics items =
        some
          { totalItems := items.length
            soldItems := (items.filter (fun i => i.soldOut)).length
            averagePrice := (items.map (fun i => i.price)).sum / items.length } := by
  refine ⟨rfl, ?_⟩
  intro items hne
  unfold ItemService.GetStatistics
  rw [if_neg (by simpa using List.length_pos_of_ne_nil hne |>.ne')]

/-- Witness for the nonempty half of the C4 theorem, at a one-item store. -/
theorem getStatistics_zero_items_fails_witness :
    ItemService.GetStatistics [itemA] =
      some { totalItems := 1, soldItems := 0, averagePrice := 100 } := by
  have h := getStatistics_zero_items_fails.2 [itemA] (by decide)
  rw [h]
  rfl

/-! ### C7 -/

/-- C7: `findWithPagination(page, pageSize)` with 1-indexed `page` returns
at most `pageSize` items, the slice starting at offset
`(page-1)*pageSize` (element `k` of the page is element
`(page-1)*pageSize + k` of the table), `totalCount` equal to the number
of all items regardless of page, and an empty sequence (not an error)
for a page beyond the available data. -/
theorem findWithPagination_spec (items : List Item) (page pageSize : Nat)
    (_hpage : 1 ≤ page) :
    (ItemRepository.FindWithPagination items page pageSize).1.length ≤ pageSize ∧
    (ItemRepository.FindWithPagination items page pageSize).2 = items.length ∧
    (∀ k : Nat, k < (ItemRepository.FindWithPagination items page pageSize).1.length →
      (ItemRepository.FindWithPagination items page pageSize).1[k]? =
        items[(page - 1) * pageSize + k]?) ∧
    (items.length ≤ (page - 1) * pageSize →
      (ItemRepository.FindWithPagination items page pageSize).1 = []) := by
  unfold ItemRepository.FindWithPagination
  refine ⟨?_, rfl, ?_, ?_⟩
  · simp [List.length_take_le]
  · intro k hk
    simp only [List.length_take, lt_min_iff] at hk
    rw [List.getElem?_take_of_lt hk.1, List.getElem?_drop]
  · intro h
    rw [List.drop_eq_nil_of_le h, List.take_nil]

/-- Witness for C7 at the spec's example: 25 items, page size 10; page 3
yields 5 items and total 25, page 4 yields the empty sequence and
total 25. -/
theorem findWithPagination_spec_witness :
    (ItemRepository.FindWithPagination items25 3 10).1.length = 5 ∧
    (ItemRepository.FindWithPagination items25 3 10).2 = 25 ∧
    (ItemRepository.FindWithPagination items25 4 10).1 = [] ∧
    (ItemRepository.FindWithPagination items25 4 10).2 = 25 := by
  have h3 := findWithPagination_spec items25 3 10 (by decide)
  have h4 := findWithPagination_spec items25 4 10 (by decide)
  have hlen : items25.length = 25 := by
    simp [items25]
  refine ⟨by decide, ?_, ?_, ?_⟩
  · rw [h3.2.1, hlen]
  · exact h4.2.2.2 (by rw [hlen]; decide)
  · rw [h4.2.1, hlen]

/-! ### C3 -/

/-- C3 counterexample: `createItem` does not persist the client-supplied
price unmodified.  For the valid input with price 1000 the stored price
is `calculatePrice 1000 = 1100` (the 1.10 tax markup of
`ItemService.calculatePrice`), not 1000. -/
theorem create_price_not_passed_through :
    laptopInput.Valid ∧
    (ItemService.Create emptyDB laptopInput).1.price = 1100 ∧
    (1100 : Nat) ≠ 1000 := by
  refine ⟨by decide, rfl, by decide⟩

/-- C3 amended: for every valid `CreateItemInput`, `createItem` maps the
input to an entity with `soldOut = false` and name and description taken
verbatim, appends exactly that row, but stores
`calculatePrice(input.price)` — the 1.10 tax markup — rather than the
client-supplied price. -/
theorem create_applies_tax_markup (db : DB) (input : CreateItemInput)
    (_hv : input.Valid) :
    (ItemService.Create db input).1.soldOut = false ∧
    (ItemService.Create db input).1.price = calculatePrice input.price ∧
    (ItemService.Create db input).1.name = input.name ∧
    (ItemService.Create db input).1.description = input.description ∧
    (ItemService.Create db input).2.items = db.items ++ [(ItemService.Create db input).1] ∧
    (ItemService.Create db input).2.users = db.users :=
  ⟨rfl, rfl, rfl, rfl, rfl, rfl⟩

/-- Witness for C3 at the valid laptop input on the empty store. -/
theorem create_applies_tax_markup_witness :
    (ItemService.Create emptyDB laptopInput).1.soldOut = false ∧
    (ItemService.Create emptyDB laptopInput).1.price = calculatePrice 1000 := by
  have h := create_applies_tax_markup emptyDB laptopInput (by decide)
  exact ⟨h.1, h.2.1⟩

/-! ### Characterizing a successful `ItemService.Update` -/

theorem match_repo_ok {db : DB} {T it : Item} {db' : DB}
    (h : (match ItemRepository.Update db T with
          | .error e => Except.error e
          | .ok db2 => Except.ok (T, db2)) = Except.ok (it, db')) :
    it = T ∧ ItemRepository.Update db T = .ok db' := by
  cases hrepo : ItemRepository.Update db T with
  | error e => rw [hrepo] at h; exact Except.noConfusion h
  | ok db2 =>
    rw [hrepo] at h
    simp only [Except.ok.injEq, Prod.mk.injEq] at h
    exact ⟨h.1.symm, by rw [← h.2]⟩

theorem ItemService.update_ok_characterization {db : DB} {itemId : Nat}
    {input : UpdateItemInput} {t : Item} (ht : findItemById db itemId = some t)
    {it : Item} {db' : DB}
    (hok : ItemService.Update db itemId input = .ok (it, db')) :
    it.id = t.id ∧
    it.name = input.name.getD t.name ∧
    it.price = (input.price.map calculatePrice).getD t.price ∧
    it.description = input.description.getD t.description ∧
    it.soldOut = t.soldOut ∧
    db'.users = db.users ∧
    db'.items = db.items.map (fun j => if j.id == t.id then it else j) := by
  unfold ItemService.Update at hok
  rw [ht] at hok
  cases hn : input.name <;> cases hp : input.price <;> cases hd : input.description <;>
      simp only [hn, hp, hd, Option.getD_some, Option.getD_none,
        Option.map_some', Option.map_none'] at hok ⊢ <;>
    · obtain ⟨rfl, hrepo⟩ := match_repo_ok hok
      obtain ⟨hu, hi⟩ := ItemRepository.update_ok_shape hrepo
      exact ⟨rfl, rfl, rfl, rfl, rfl, hu, hi⟩

/-! ### C5 -/

/-- C5 counterexample: for the stored item with name A and price 100, the
service update with only price 150 set stores price
`calculatePrice 150 = 165` (tax markup), not 150, so the claim's concrete
instance "yields name A, price 150" is false on the code. -/
theorem update_price_input150_stores165 :
    ItemService.Update dbA 1 priceOnly150 =
      .ok ({ itemA with price := 165 },
           { items := [{ itemA with price := 165 }], users := [] }) ∧
    (165 : Nat) ≠ 150 :=
  ⟨rfl, by decide⟩

/-- C5 amended: a successful service update changes exactly the fields
present (non-nil) in the input and leaves absent fields untouched; name
and description are stored verbatim, while a present price is stored as
`calculatePrice` of the input value, so updating the item with name A and
price 100 with only price 150 yields name A (unchanged) and price 165. -/
theorem update_partial_fields_spec (db : DB) (itemId : Nat)
    (input : UpdateItemInput) (t : Item) (ht : findItemById db itemId = some t)
    (it : Item) (db' : DB)
    (hok : ItemService.Update db itemId input = .ok (it, db')) :
    it.name = input.name.getD t.name ∧
    it.price = (input.price.map calculatePrice).getD t.price ∧
    it.description = input.description.getD t.description ∧
    it.soldOut = t.soldOut := by
  obtain ⟨_, h1, h2, h3, h4, _, _⟩ := ItemService.update_ok_characterization ht hok
  exact ⟨h1, h2, h3, h4⟩

/-- Witness for the amended C5 at the concrete price-only update. -/
theorem update_partial_fields_spec_witness :
    ({ itemA with price := 165 } : Item).name = priceOnly150.name.getD itemA.name ∧
    ({ itemA with price := 165 } : Item).price =
      (priceOnly150.price.map calculatePrice).getD itemA.price ∧
    ({ itemA with price := 165 } : Item).description =
      priceOnly150.description.getD itemA.description ∧
    ({ itemA with price := 165 } : Item).soldOut = itemA.soldOut :=
  update_partial_fields_spec dbA 1 priceOnly150 itemA rfl
    { itemA with price := 165 }
    { items := [{ itemA with price := 165 }], users := [] } rfl

/-! ### C10 -/

/-- Partial update request that only sets the sold-out pointer, to true. -/
def soldOutTrueInput : UpdateItemInput :=
  { name := none, price := none, description := none, soldOut := some true }

/-- C10: the service-level update never changes an item's `soldOut` field:
even though `UpdateItemInput` carries a `SoldOut` pointer, the
partial-update logic applies only `Name`, `Price` and `Description`, so
for every stored item and every input (including one with `SoldOut`
present) the returned item and every stored row with that id keep the
previous `soldOut` value. -/
theorem update_never_changes_soldOut (db : DB) (itemId : Nat)
    (input : UpdateItemInput) (t : Item) (ht : findItemById db itemId = some t)
    (it : Item) (db' : DB)
    (hok : ItemService.Update db itemId input = .ok (it, db')) :
    it.soldOut = t.soldOut ∧
    ∀ j ∈ db'.items, j.id = itemId → j.soldOut = t.soldOut := by
  obtain ⟨hid, _, _, _, hsold, _, hitems⟩ := ItemService.update_ok_characterization ht hok
  refine ⟨hsold, ?_⟩
  intro j hj hjid
  rw [← hid] at hitems
  rw [hitems] at hj
  have hj_eq : j = it :=
    mem_replace_item hj (by rw [hjid, ← findItemById_id_eq ht, hid])
  rw [hj_eq, hsold]

/-- Witness for C10: updating the unsold item A with an input whose
`SoldOut` pointer is set to true returns the item unchanged. -/
theorem update_never_changes_soldOut_witness :
    ItemService.Update dbA 1 soldOutTrueInput = .ok (itemA, dbA) ∧
    itemA.soldOut = itemA.soldOut :=
  ⟨rfl,
   (update_never_changes_soldOut dbA 1 soldOutTrueInput itemA rfl itemA dbA rfl).1⟩

/-! ### C6 -/

theorem ItemRepository.update_error_of {db : DB} {T t : Item}
    (hfind : db.items.find? (fun i => i.id == T.id) = some t)
    (hc : (t.soldOut && t.price != T.price) = true) :
    ItemRepository.Update db T = .error .immutablePriceAfterSale := by
  unfold ItemRepository.Update
  simp only [hfind, hc, if_true]

theorem ItemRepository.update_ok_of {db : DB} {T t : Item}
    (hfind : db.items.find? (fun i => i.id == T.id) = some t)
    (hc : (t.soldOut && t.price != T.price) = false) :
    ItemRepository.Update db T =
      .ok { db with items := db.items.map (fun i => if i.id == T.id then T else i) } := by
  unfold ItemRepository.Update
  simp only [hfind, hc, Bool.false_eq_true, if_false]

/-- A sold-out item whose stored price is 110. -/
def soldItem110 : Item :=
  { id := 1, name := "A", price := 110, description := "", soldOut := true }

/-- A store holding only the sold-out item with price 110. -/
def dbSold110 : DB := { items := [soldItem110], users := [] }

/-- Partial update request that only sets the price, to 100. -/
def priceOnly100 : UpdateItemInput :=
  { name := none, price := some 100, description := none, soldOut := none }

/-- C6 counterexample: the claim says every update whose input sets the
price of a sold-out item to a different value fails.  For the sold-out
item with stored price 110, the input price 100 is a different value,
yet the update succeeds, because the service stores
`calculatePrice 100 = 110`, which the `BeforeUpdate` hook compares as
unchanged. -/
theorem update_soldOut_price_change_accepted :
    (100 : Nat) ≠ soldItem110.price ∧
    ItemService.Update dbSold110 1 priceOnly100 = .ok (soldItem110, dbSold110) :=
  ⟨by decide, rfl⟩

/-- C6 amended: for a sold-out stored item, an update whose input sets a
price whose stored (tax-adjusted) value `calculatePrice p` differs from
the current price fails with `immutablePriceAfterSale` (so no state is
written), while an update whose input leaves the price absent — e.g. one
setting only the description — succeeds; in particular, on a sold-out
item with price 100 an input price of 200 is rejected. -/
theorem match_repo_error (db : DB) (T : Item) {t : Item}
    (hfind : db.items.find? (fun i => i.id == T.id) = some t)
    (hc : (t.soldOut && t.price != T.price) = true) :
    (match ItemRepository.Update db T with
     | .error e => Except.error e
     | .ok db2 => Except.ok (T, db2)) =
      (Except.error .immutablePriceAfterSale : Except AppError (Item × DB)) := by
  rw [ItemRepository.update_error_of hfind hc]

theorem match_repo_ok_of (db : DB) (T : Item) {t : Item}
    (hfind : db.items.find? (fun i => i.id == T.id) = some t)
    (hc : (t.soldOut && t.price != T.price) = false) :
    (match ItemRepository.Update db T with
     | .error e => Except.error e
     | .ok db2 => Except.ok (T, db2)) =
      (Except.ok (T, { db with items := db.items.map (fun i => if i.id == T.id then T else i) }) :
        Except AppError (Item × DB)) := by
  rw [ItemRepository.update_ok_of hfind hc]

theorem update_soldOut_price_immutability (db : DB) (itemId : Nat)
    (input : UpdateItemInput) (t : Item)
    (ht : findItemById db itemId = some t) (hsold : t.soldOut = true) :
    (∀ p, input.price = some p → calculatePrice p ≠ t.price →
      ItemService.Update db itemId input = .error .immutablePriceAfterSale) ∧
    (input.price = none →
      ∃ r, ItemService.Update db itemId input = .ok r) := by
  have hid : t.id = itemId := findItemById_id_eq ht
  have hfind0 : db.items.find? (fun i => i.id == t.id) = some t := by
    rw [hid]; exact ht
  constructor
  · intro p hp hne
    have hc0 : (t.soldOut && t.price != calculatePrice p) = true := by
      rw [hsold, Bool.true_and, bne_iff_ne]
      exact Ne.symm hne
    unfold ItemService.Update
    rw [ht]
    cases hn : input.name <;> cases hd : input.description <;>
        simp only [hn, hp, hd] <;>
      · exact match_repo_error db _ hfind0 hc0
  · intro hp
    have hc1 : (t.soldOut && t.price != t.price) = false := by
      rw [bne_self_eq_false, Bool.and_false]
    unfold ItemService.Update
    rw [ht]
    cases hn : input.name <;> cases hd : input.description <;>
        simp only [hn, hp, hd] <;>
      · exact ⟨_, match_repo_ok_of db _ hfind0 hc1⟩

/-- A sold-out item with price 100, as in the spec's immutability test. -/
def soldItem100 : Item :=
  { id := 1, name := "A", price := 100, description := "", soldOut := true }

/-- A store holding only the sold-out item with price 100. -/
def dbSold100 : DB := { items := [soldItem100], users := [] }

/-- Partial update request that only sets the price, to 200. -/
def priceOnly200 : UpdateItemInput :=
  { name := none, price := some 200, description := none, soldOut := none }

/-- Partial update request that only sets the description, to x. -/
def descOnlyX : UpdateItemInput :=
  { name := none, price := none, description := some "x", soldOut := none }

/-- Witness for the amended C6: on the sold-out price-100 item, input
price 200 is rejected with `immutablePriceAfterSale`, while a
description-only update succeeds. -/
theorem update_soldOut_price_immutability_witness :
    ItemService.Update dbSold100 1 priceOnly200 = .error .immutablePriceAfterSale ∧
    ItemService.Update dbSold100 1 descOnlyX =
      .ok ({ soldItem100 with description := "x" },
           { items := [{ soldItem100 with description := "x" }], users := [] }) :=
  ⟨(update_soldOut_price_immutability dbSold100 1 priceOnly200 soldItem100 rfl rfl).1
      200 rfl (by decide),
   rfl⟩

/-! ### C1 -/

theorem ItemRepository.update_soldOut_write (db : DB) (it : Item)
    (hfind : db.items.find? (fun i => i.id == it.id) = some it)
    (hsold : it.soldOut = false) :
    ItemRepository.Update db { it with soldOut := true } =
      .ok { db with items := (db.items.map
            (fun i => if i.id == it.id then { it with soldOut := true } else i)) } := by
  unfold ItemRepository.Update
  dsimp only
  rw [hfind]
  simp only [hsold, Bool.false_and, Bool.false_eq_true, if_false]

theorem UserRepository.update_write (db : DB) (u : User) {old : User}
    (hfind : db.users.find? (fun v => v.id == u.id) = some old) :
    UserRepository.Update db u =
      .ok { db with users := db.users.map (fun v => if v.id == u.id then u else v) } := by
  unfold UserRepository.Update
  simp only [hfind]

/-- C1: for every store and ids, `purchaseItem` propagates `notFound` for
a missing item or buyer; rejects with `alreadySoldOut` when the item is
sold out and with `insufficientBalance` when the buyer's balance is below
the price, each rejection leaving the store unchanged; and otherwise
succeeds, after which every stored row with the item's id is sold out and
every stored row with the buyer's id holds the previous balance minus
exactly the item's price. -/
theorem purchaseItem_spec (db : DB) (itemId userId : Nat) :
    (findItemById db itemId = none →
      ItemService.PurchaseItem db itemId userId false = (.error .notFound, db)) ∧
    (∀ it, findItemById db itemId = some it → it.soldOut = true →
      ItemService.PurchaseItem db itemId userId false = (.error .alreadySoldOut, db)) ∧
    (∀ it, findItemById db itemId = some it → it.soldOut = false →
      findUserById db userId = none →
      ItemService.PurchaseItem db itemId userId false = (.error .notFound, db)) ∧
    (∀ it us, findItemById db itemId = some it → it.soldOut = false →
      findUserById db userId = some us → us.balance < it.price →
      ItemService.PurchaseItem db itemId userId false = (.error .insufficientBalance, db)) ∧
    (∀ it us, findItemById db itemId = some it → it.soldOut = false →
      findUserById db userId = some us → it.price ≤ us.balance →
      (ItemService.PurchaseItem db itemId userId false).1 = .ok () ∧
      (∀ j ∈ (ItemService.PurchaseItem db itemId userId false).2.items,
        j.id = itemId → j.soldOut = true) ∧
      (∀ v ∈ (ItemService.PurchaseItem db itemId userId false).2.users,
        v.id = userId → v.balance + it.price = us.balance)) := by
  refine ⟨?_, ?_, ?_, ?_, ?_⟩
  · intro h
    unfold ItemService.PurchaseItem
    simp only [h]
  · intro it h hsold
    unfold ItemService.PurchaseItem
    simp only [h, hsold, if_true]
  · intro it h hsold hu
    unfold ItemService.PurchaseItem
    simp only [h, hsold, Bool.false_eq_true, if_false, hu]
  · intro it us h hsold hu hlt
    unfold ItemService.PurchaseItem
    simp only [h, hsold, Bool.false_eq_true, if_false, hu, if_pos hlt]
  · intro it us h hsold hu hle
    have hitid : it.id = itemId := findItemById_id_eq h
    have husid : us.id = userId := findUserById_id_eq hu
    have hfind0 : db.items.find? (fun i => i.id == it.id) = some it := by
      rw [hitid]; exact h
    have hufind : db.users.find? (fun v => v.id == us.id) = some us := by
      rw [husid]; exact hu
    have hrun : ItemService.PurchaseItem db itemId userId false =
        (.ok (),
         { items := (db.items.map
             (fun i => if i.id == it.id then { it with soldOut := true } else i))
           users := (db.users.map
             (fun v => if v.id == us.id then { us with balance := us.balance - it.price } else v)) }) := by
      unfold ItemService.PurchaseItem
      simp only [h, hsold, Bool.false_eq_true, if_false, hu, if_neg (Nat.not_lt.mpr hle)]
      rw [ItemRepository.update_soldOut_write db it hfind0 hsold]
      dsimp only
      rw [UserRepository.update_write
        { db with items := (db.items.map
            (fun i => if i.id == it.id then { it with soldOut := true } else i)) }
        { us with balance := us.balance - it.price } hufind]
    have hitems : (ItemService.PurchaseItem db itemId userId false).2.items =
        db.items.map (fun i => if i.id == it.id then { it with soldOut := true } else i) := by
      rw [hrun]
    have husers : (ItemService.PurchaseItem db itemId userId false).2.users =
        db.users.map
          (fun v => if v.id == us.id then { us with balance := us.balance - it.price } else v) := by
      rw [hrun]
    refine ⟨by rw [hrun], ?_, ?_⟩
    · intro j hj hjid
      rw [hitems] at hj
      have hj_eq : j = { it with soldOut := true } :=
        mem_replace_item hj (hjid.trans hitid.symm)
      rw [hj_eq]
    · intro v hv hvid
      rw [husers] at hv
      have hv_eq : v = { us with balance := us.balance - it.price } :=
        mem_replace_user hv (hvid.trans husid.symm)
      rw [hv_eq]
      exact Nat.sub_add_cancel hle

/-- A buyer with balance 500. -/
def buyer1 : User := { id := 1, balance := 500 }

/-- An unsold item with price 500. -/
def itemBook : Item :=
  { id := 1, name := "Book", price := 500, description := "", soldOut := false }

/-- A store with the unsold 500-price item and the 500-balance buyer. -/
def dbPurchase : DB := { items := [itemBook], users := [buyer1] }

/-- Witness for C1 at the spec's example: price 500, balance 500; the
purchase succeeds, the stored item is sold out, and the stored balance
plus the price equals the old balance (the debit is exact). -/
theorem purchaseItem_spec_witness :
    (ItemService.PurchaseItem dbPurchase 1 1 false).1 = .ok () ∧
    ({ itemBook with soldOut := true } : Item).soldOut = true ∧
    ({ buyer1 with balance := 0 } : User).balance + itemBook.price = buyer1.balance := by
  have h := (purchaseItem_spec dbPurchase 1 1).2.2.2.2 itemBook buyer1 rfl rfl rfl (by decide)
  refine ⟨h.1, ?_, ?_⟩
  · exact h.2.1 { itemBook with soldOut := true } (by decide) rfl
  · exact h.2.2 { buyer1 with balance := 0 } (by decide) rfl

/-! ### C2 -/

/-- C2: the claim says the two purchase writes take effect all-or-nothing,
with the orchestrator reverting the sold-out write if the balance write
fails.  In the source the transaction and `tx.Rollback()` calls are
commented out: when `s.userRepo.Update` fails after the item write
succeeded, `PurchaseItem` just returns the error.  Evaluating the code at
the failing input (item price 500 not sold, buyer balance 500, storage
failure on the balance write) leaves a persisted state in which the item
is sold out while the buyer's balance is still 500 — an inconsistent
state observable by every later reader, contradicting the claim. -/
theorem purchaseItem_partial_failure_persists_inconsistency :
    ItemService.PurchaseItem dbPurchase 1 1 true =
      (.error .infrastructureError,
       { items := [{ itemBook with soldOut := true }], users := [buyer1] }) ∧
    buyer1.balance = 500 ∧
    itemBook.price = 500 :=
  ⟨rfl, rfl, rfl⟩

/-! ### C8 -/

/-- Program counter of an in-flight `PurchaseItem` call: the four atomic
repository operations of the purchase flow, plus the halted state. -/
inductive PurchasePC where
  | loadItem
  | loadUser
  | writeItem
  | writeUser
  | halted
deriving DecidableEq, Repr

/-- One concurrent `PurchaseItem(itemId, userId)` call: its program
counter, the item and user copies it has loaded (the Go locals `item` and
`user`), and its result once returned. -/
structure PurchaseThread where
  itemId : Nat
  userId : Nat
  pc : PurchasePC
  item : Option Item
  user : Option User
  result : Option (Except AppError Unit)
deriving Repr

/-- A `PurchaseItem` call that has not yet started. -/
def PurchaseThread.start (itemId userId : Nat) : PurchaseThread :=
  { itemId := itemId, userId := userId, pc := .loadItem,
    item := none, user := none, result := none }

/-- One atomic step of a concurrent `PurchaseItem` call.  Each repository
call is one atomic action (the repository is the sole synchronization
boundary; the in-memory store locks only per call and the GORM store runs
each call as its own statement — the commented-out transaction does not
group them); the business-rule checks between calls run on the thread's
loaded copies.  The steps mirror the source: load item and check
sold-out, load user and check balance, persist the item with
`SoldOut = true`, persist the debited balance. -/
def purchaseStep (db : DB) (t : PurchaseThread) : PurchaseThread × DB :=
  match t.pc with
  | .loadItem =>
    match findItemById db t.itemId with
    | none => ({ t with pc := .halted, result := some (.error .notFound) }, db)
    | some it =>
      if it.soldOut then
        ({ t with pc := .halted, result := some (.error .alreadySoldOut) }, db)
      else ({ t with pc := .loadUser, item := some it }, db)
  | .loadUser =>
    match t.item with
    | none => ({ t with pc := .halted }, db)
    | some it =>
      match findUserById db t.userId with
      | none => ({ t with pc := .halted, result := some (.error .notFound) }, db)
      | some us =>
        if us.balance < it.price then
          ({ t with pc := .halted, result := some (.error .insufficientBalance) }, db)
        else ({ t with pc := .writeItem, user := some us }, db)
  | .writeItem =>
    match t.item with
    | none => ({ t with pc := .halted }, db)
    | some it =>
      match ItemRepository.Update db { it with soldOut := true } with
      | .error e => ({ t with pc := .halted, result := some (.error e) }, db)
      | .ok db2 => ({ t with pc := .writeUser }, db2)
  | .writeUser =>
    match t.item, t.user with
    | some it, some us =>
      match UserRepository.Update db { us with balance := us.balance - it.price } with
      | .error e => ({ t with pc := .halted, result := some (.error e) }, db)
      | .ok db3 => ({ t with pc := .halted, result := some (.ok ()) }, db3)
    | _, _ => ({ t with pc := .halted }, db)
  | .halted => (t, db)

/-- Runs two concurrent `PurchaseItem` calls under a schedule: `true`
steps the first thread, `false` the second. -/
def runTwo (db : DB) (t1 t2 : PurchaseThread) : List Bool → DB × PurchaseThread × PurchaseThread
  | [] => (db, t1, t2)
  | b :: rest =>
    if b then
      let s := purchaseStep db t1
      runTwo s.2 s.1 t2 rest
    else
      let s := purchaseStep db t2
      runTwo s.2 t1 s.1 rest

/-- A second buyer with balance 500. -/
def buyer2 : User := { id := 2, balance := 500 }

/-- Store for the race: one unsold 500-price item, two 500-balance buyers. -/
def dbRace : DB := { items := [itemBook], users := [buyer1, buyer2] }

/-- The racy schedule: both calls load the item (both see it unsold) and
load their buyers before either write happens, then both write. -/
def raceSchedule : List Bool :=
  [true, false, true, false, true, false, true, false]

/-- C8: the claim says N ≥ 2 concurrent `purchaseItem` calls on the same
not-yet-sold item produce exactly one success and N−1 `AlreadySoldOut`
failures.  The purchase flow takes no lock and no transaction spanning
its check and its writes (the transaction code is commented out), so
under the schedule in which both calls pass the sold-out check before
either write, both calls succeed: the same item is sold twice and both
buyers are debited the full price. -/
theorem concurrent_purchases_double_success :
    (runTwo dbRace (PurchaseThread.start 1 1) (PurchaseThread.start 1 2) raceSchedule).2.1.result
      = some (.ok ()) ∧
    (runTwo dbRace (PurchaseThread.start 1 1) (PurchaseThread.start 1 2) raceSchedule).2.2.result
      = some (.ok ()) ∧
    (runTwo dbRace (PurchaseThread.start 1 1) (PurchaseThread.start 1 2) raceSchedule).1 =
      { items := [{ itemBook with soldOut := true }],
        users := [{ buyer1 with balance := 0 }, { buyer2 with balance := 0 }] } :=
  ⟨rfl, rfl, rfl⟩

/-! ### C9 -/

/-- One core orchestrator operation. -/
inductive Op where
  | create (input : CreateItemInput)
  | update (itemId : Nat) (input : UpdateItemInput)
  | purchase (itemId userId : Nat)
deriving Repr

/-- Applies one orchestrator operation to the store; an operation that
returns an error has written nothing and leaves the store unchanged. -/
def applyOp (db : DB) : Op → DB
  | .create input => (ItemService.Create db input).2
  | .update itemId input =>
    match ItemService.Update db itemId input with
    | .ok r => r.2
    | .error _ => db
  | .purchase itemId userId => (ItemService.PurchaseItem db itemId userId false).2

/-- Runs a sequence of orchestrator operations. -/
def runOps (db : DB) (ops : List Op) : DB := ops.foldl applyOp db

/-- Well-formed store: the item primary keys are exactly 1..n in storage
order, as maintained by sequential key assignment from an empty table. -/
def goodIds (db : DB) : Prop :=
  db.items.map (fun i => i.id) = List.range' 1 db.items.length

instance (db : DB) : Decidable (goodIds db) := by
  unfold goodIds
  infer_instance

theorem map_id_replace (l : List Item) (a : Item) :
    (l.map (fun j => if j.id == a.id then a else j)).map (fun i => i.id) =
      l.map (fun i => i.id) := by
  induction l with
  | nil => rfl
  | cons x xs ih =>
    simp only [List.map_cons, ih]
    congr 1
    cases h : x.id == a.id with
    | true =>
      simp only [if_true]
      exact (eq_of_beq h).symm
    | false => simp

theorem goodIds_nodup {db : DB} (hg : goodIds db) :
    (db.items.map (fun i => i.id)).Nodup := by
  unfold goodIds at hg
  rw [hg]
  exact List.nodup_range' 1 db.items.length

theorem goodIds_create {db : DB} (input : CreateItemInput) (hg : goodIds db) :
    goodIds (ItemService.Create db input).2 := by
  unfold goodIds at hg ⊢
  unfold ItemService.Create ItemRepository.Create
  dsimp only
  rw [List.map_append, hg, List.length_append]
  simp [List.range'_concat, Nat.add_comm]

theorem goodIds_item_update {db db' : DB} {T : Item}
    (h : ItemRepository.Update db T = .ok db') (hg : goodIds db) : goodIds db' := by
  obtain ⟨-, hi⟩ := ItemRepository.update_ok_shape h
  unfold goodIds at hg ⊢
  rw [hi, map_id_replace, List.length_map]
  exact hg

theorem goodIds_user_update {db db' : DB} {u : User}
    (h : UserRepository.Update db u = .ok db') (hg : goodIds db) : goodIds db' := by
  obtain ⟨hi, -⟩ := UserRepository.update_users_shape h
  unfold goodIds at hg ⊢
  rw [hi]
  exact hg

theorem goodIds_service_update {db : DB} {itemId : Nat} {input : UpdateItemInput}
    {it : Item} {db' : DB}
    (hok : ItemService.Update db itemId input = .ok (it, db')) (hg : goodIds db) :
    goodIds db' := by
  unfold ItemService.Update at hok
  cases ht : findItemById db itemId with
  | none => rw [ht] at hok; exact Except.noConfusion hok
  | some t =>
    simp only [ht] at hok
    obtain ⟨-, hrepo⟩ := match_repo_ok hok
    exact goodIds_item_update hrepo hg

theorem goodIds_purchase (db : DB) (itemId userId : Nat) (ff : Bool) (hg : goodIds db) :
    goodIds (ItemService.PurchaseItem db itemId userId ff).2 := by
  unfold ItemService.PurchaseItem
  cases h : findItemById db itemId with
  | none => exact hg
  | some it =>
    simp only [h]
    cases hsold : it.soldOut with
    | true =>
      simp only [hsold, if_true]
      exact hg
    | false =>
      simp only [hsold, Bool.false_eq_true, if_false]
      cases hu : findUserById db userId with
      | none =>
        simp only [hu]
        exact hg
      | some us =>
        simp only [hu]
        by_cases hlt : us.balance < it.price
        · simp only [if_pos hlt]
          exact hg
        · simp only [if_neg hlt]
          cases hrepo : ItemRepository.Update db { it with soldOut := true } with
          | error e =>
            simp only [hrepo]
            exact hg
          | ok db2 =>
            simp only [hrepo]
            have hg2 : goodIds db2 := goodIds_item_update hrepo hg
            cases ff with
            | true =>
              simp only [if_true]
              exact hg2
            | false =>
              simp only [Bool.false_eq_true, if_false]
              cases huw : UserRepository.Update db2
                  { us with balance := us.balance - it.price } with
              | error e =>
                simp only [huw]
                exact hg2
              | ok db3 =>
                simp only [huw]
                exact goodIds_user_update huw hg2

theorem goodIds_applyOp (db : DB) (op : Op) (hg : goodIds db) :
    goodIds (applyOp db op) := by
  cases op with
  | create input => exact goodIds_create input hg
  | update itemId input =>
    simp only [applyOp]
    cases hok : ItemService.Update db itemId input with
    | error e =>
      simp only [hok]
      exact hg
    | ok r =>
      simp only [hok]
      obtain ⟨it, db'⟩ := r
      exact goodIds_service_update hok hg
  | purchase itemId userId => exact goodIds_purchase db itemId userId false hg

theorem soldOut_mono_applyOp (db : DB) (op : Op) (hg : goodIds db)
    {i : Item} (hi : i ∈ db.items) (hs : i.soldOut = true) :
    ∃ j, j ∈ (applyOp db op).items ∧ j.id = i.id ∧ j.soldOut = true := by
  cases op with
  | create input =>
    refine ⟨i, ?_, rfl, hs⟩
    simp only [applyOp]
    unfold ItemService.Create ItemRepository.Create
    dsimp only
    exact List.mem_append_left _ hi
  | update itemId input =>
    simp only [applyOp]
    cases hok : ItemService.Update db itemId input with
    | error e =>
      simp only [hok]
      exact ⟨i, hi, rfl, hs⟩
    | ok r =>
      simp only [hok]
      obtain ⟨it, db'⟩ := r
      cases ht : findItemById db itemId with
      | none =>
        exfalso
        unfold ItemService.Update at hok
        rw [ht] at hok
        exact Except.noConfusion hok
      | some t =>
        obtain ⟨hiteq, -, -, -, hsold_eq, -, hitems⟩ :=
          ItemService.update_ok_characterization ht hok
        have hmem : (if i.id == t.id then it else i) ∈ db'.items := by
          rw [hitems]
          exact List.mem_map_of_mem _ hi
        cases hcase : i.id == t.id with
        | true =>
          rw [hcase] at hmem
          simp only [if_true] at hmem
          have hti : t = i :=
            item_eq_of_id_eq (goodIds_nodup hg) (findItemById_mem ht) hi
              (eq_of_beq hcase).symm
          refine ⟨it, hmem, ?_, ?_⟩
          · rw [hiteq, hti]
          · rw [hsold_eq, hti]
            exact hs
        | false =>
          rw [hcase] at hmem
          simp only [Bool.false_eq_true, if_false] at hmem
          exact ⟨i, hmem, rfl, hs⟩
  | purchase itemId userId =>
    simp only [applyOp]
    unfold ItemService.PurchaseItem
    cases h : findItemById db itemId with
    | none => exact ⟨i, hi, rfl, hs⟩
    | some it =>
      simp only [h]
      cases hsold2 : it.soldOut with
      | true =>
        simp only [hsold2, if_true]
        exact ⟨i, hi, rfl, hs⟩
      | false =>
        simp only [hsold2, Bool.false_eq_true, if_false]
        cases hu : findUserById db userId with
        | none =>
          simp only [hu]
          exact ⟨i, hi, rfl, hs⟩
        | some us =>
          simp only [hu]
          by_cases hlt : us.balance < it.price
          · simp only [if_pos hlt]
            exact ⟨i, hi, rfl, hs⟩
          · simp only [if_neg hlt]
            cases hrepo : ItemRepository.Update db { it with soldOut := true } with
            | error e =>
              simp only [hrepo]
              exact ⟨i, hi, rfl, hs⟩
            | ok db2 =>
              simp only [hrepo, Bool.false_eq_true, if_false]
              have hmem : (if i.id == it.id then ({ it with soldOut := true } : Item) else i)
                  ∈ db2.items := by
                rw [(ItemRepository.update_ok_shape hrepo).2]
                exact List.mem_map_of_mem _ hi
              cases huw : UserRepository.Update db2
                  { us with balance := us.balance - it.price } with
              | error e =>
                simp only [huw]
                cases hcase : i.id == it.id with
                | true =>
                  rw [hcase] at hmem
                  simp only [if_true] at hmem
                  exact ⟨{ it with soldOut := true }, hmem, (eq_of_beq hcase).symm, rfl⟩
                | false =>
                  rw [hcase] at hmem
                  simp only [Bool.false_eq_true, if_false] at hmem
                  exact ⟨i, hmem, rfl, hs⟩
              | ok db3 =>
                simp only [huw]
                have hmem3 : (if i.id == it.id then ({ it with soldOut := true } : Item) else i)
                    ∈ db3.items := by
                  rw [(UserRepository.update_users_shape huw).1]
                  exact hmem
                cases hcase : i.id == it.id with
                | true =>
                  rw [hcase] at hmem3
                  simp only [if_true] at hmem3
                  exact ⟨{ it with soldOut := true }, hmem3, (eq_of_beq hcase).symm, rfl⟩
                | false =>
                  rw [hcase] at hmem3
                  simp only [Bool.false_eq_true, if_false] at hmem3
                  exact ⟨i, hmem3, rfl, hs⟩

/-- C9: across every sequence of core operations (create, update,
purchase) on a well-formed store, an item's `soldOut` flag is monotone:
once a stored item is sold out, the stored item with that id remains sold
out after the whole sequence — no core operation ever reverts it to
false. -/
theorem soldOut_monotone (ops : List Op) (db : DB) (hg : goodIds db)
    (i : Item) (hi : i ∈ db.items) (hs : i.soldOut = true)
    (i' : Item) (hi' : i' ∈ (runOps db ops).items) (hid : i'.id = i.id) :
    i'.soldOut = true := by
  induction ops generalizing db i with
  | nil =>
    have hii : i' = i := item_eq_of_id_eq (goodIds_nodup hg) hi' hi hid
    rw [hii]
    exact hs
  | cons op rest ih =>
    obtain ⟨j, hj, hjid, hjs⟩ := soldOut_mono_applyOp db op hg hi hs
    exact ih (applyOp db op) (goodIds_applyOp db op hg) j hj hjs hi' (hid.trans hjid.symm)

/-- Witness for C9: starting from the store holding the sold-out item
with price 100, after a description-only update the stored item with
that id is still sold out. -/
theorem soldOut_monotone_witness :
    ({ soldItem100 with description := "x" } : Item)
      ∈ (runOps dbSold100 [Op.update 1 descOnlyX]).items ∧
    ({ soldItem100 with description := "x" } : Item).soldOut = true :=
  ⟨by decide,
   soldOut_monotone [Op.update 1 descOnlyX] dbSold100 (by decide) soldItem100
     (by decide) rfl { soldItem100 with description := "x" } (by decide) rfl⟩
